import Mathlib

/-!
Verification development for the training/evaluation orchestration code in
`src/rtdetr_pytorch/src/zoo/train.py` (functions `fit` and `val`).

The two functions are straight-line orchestration code whose observable
behaviour is the ordered sequence of side-effecting calls they make and the
values they return.  We embed each function as a Lean function from an
explicit configuration (the function arguments plus the ambient facts the
code branches on, such as whether distributed mode is active) to the list of
events it performs, in source order, together with pure observation
functions for the values it returns.  Machine-level numerics (tensors,
learning rates) are irrelevant to the claims; scalar literals from the
source (0.9999, 0.1, 2000, 1000, 100) are kept exactly, as rationals where
fractional.
-/

/-- `range(a, b)` of Python: the list `[a, a+1, ..., b-1]`, empty when `b ≤ a`. -/
def pyRange (a b : Nat) : List Nat := List.range' a (b - a)

/-- A checkpoint on disk, as far as `fit` inspects it when resuming: only its
serialized `epoch` field matters to the control flow.  (`load_tuning_state`
also restores weights, which are opaque here.) -/
structure Checkpoint where
  epoch : Nat
deriving DecidableEq, Repr

/-- Modelled from the spec: `load_tuning_state(weight_path, model, ema_model)`
is defined outside `src/` (in `src.nn.rtdetr.utils`).  Per the spec,
"Resuming reads the ... explicitly named checkpoint and returns its `epoch`
field as the resume point"; weight restoration itself is opaque. -/
def load_tuning_state (ck : Checkpoint) : Nat := ck.epoch

/-- Modelled from the spec: the record built by `state_dict(epoch, model,
ema_model)` (defined outside `src/`): "a serialized record containing at
least `epoch`, `model` (weight mapping), and `ema` (optional)".  Weights are
opaque; we keep the `epoch` field and whether the `ema` entry is present
(it is present exactly when an EMA model object was passed). -/
structure SavedState where
  epoch : Nat
  hasEma : Bool
deriving DecidableEq, Repr

/-- Modelled from the spec: `state_dict(epoch, model, ema_model)` builds the
checkpoint record; `hasEma` records whether `ema_model` was `None`. -/
def state_dict (epoch : Nat) (hasEma : Bool) : SavedState := ⟨epoch, hasEma⟩

/-- The checkpoint file path `os.path.join(save_dir, f'N.pth')`. -/
def ckptFile (dir : String) (e : Nat) : String := dir ++ "/" ++ toString e ++ ".pth"

/-- Observable events of `fit`, one constructor per side-effecting call in
the source, in each case carrying the arguments the claims talk about. -/
inductive TEvent where
  | defaultCriterion
  | defaultTrainLoader
  | defaultValLoader
  | constructScaler
  | constructEMA (decay : ℚ) (warmups : Nat)
  | constructLRScheduler (milestones : List Nat) (gamma : ℚ)
  | loadTuningState (ck : Checkpoint)
  | modelToDevice
  | emaToDevice
  | criterionToDevice
  | warpTrainLoader
  | warpValLoader
  | warpModel
  | setEpoch (e : Nat)
  | trainOneEpoch (e : Nat) (maxNorm : ℚ) (printFreq : Nat)
  | lrStep
  | saveCheckpoint (s : SavedState) (file : String)
deriving DecidableEq, Repr

/-- Arguments of `fit` plus the ambient facts its control flow branches on.
`distributed` is `dist.is_dist_available_and_initialized()`;
`is_main_process` is the rank gate inside `dist.save_on_master` (modelled
from the spec: "executes a given persistence action only on the single
coordinating process").  `criterion_given` etc. record whether the optional
arguments were passed (`None` checks on lines 35-40). -/
structure FitConfig where
  weight_path : Option Checkpoint
  save_dir : String
  epoch : Nat
  use_amp : Bool
  use_ema : Bool
  criterion_given : Bool
  train_loader_given : Bool
  val_loader_given : Bool
  distributed : Bool
  is_main_process : Bool

/-- `last_epoch` as computed on lines 47-49: 0, or the resumed checkpoint's
epoch field. -/
def last_epoch (cfg : FitConfig) : Nat :=
  match cfg.weight_path with
  | none => 0
  | some ck => load_tuning_state ck

/-- Lines 35-55 of `fit`, before the distributed-wrapping block: default
construction of missing collaborators, scaler/EMA/LR-scheduler
construction, checkpoint restore, and device placement, in source order. -/
def preDist (cfg : FitConfig) : List TEvent :=
  (if cfg.criterion_given then [] else [TEvent.defaultCriterion]) ++
  (if cfg.train_loader_given then [] else [TEvent.defaultTrainLoader]) ++
  (if cfg.val_loader_given then [] else [TEvent.defaultValLoader]) ++
  (if cfg.use_amp then [TEvent.constructScaler] else []) ++
  (if cfg.use_ema then [TEvent.constructEMA ((9999 : ℚ) / 10000) 2000] else []) ++
  [TEvent.constructLRScheduler [1000] ((1 : ℚ) / 10)] ++
  (match cfg.weight_path with
   | none => []
   | some ck => [TEvent.loadTuningState ck]) ++
  [TEvent.modelToDevice] ++
  (if cfg.use_ema then [TEvent.emaToDevice] else []) ++
  [TEvent.criterionToDevice]

/-- Lines 58-64: when distributed, wrap both loaders then the model
(the model/EMA/criterion `warp_model` lines 59-61 are commented out in the
source; only line 64's model wrap is live). -/
def distWrap (cfg : FitConfig) : List TEvent :=
  if cfg.distributed then
    [TEvent.warpTrainLoader, TEvent.warpValLoader, TEvent.warpModel]
  else []

/-- Lines 75-82, the body of one iteration of the epoch loop at epoch `e`:
optional `sampler.set_epoch`, `train_one_epoch(..., max_norm=0.1,
print_freq=100, ...)`, `lr_scheduler.step()`, and the rank-gated
`dist.save_on_master(state_dict(epoch, model, ema_model), save_dir/e.pth)`. -/
def epochBody (cfg : FitConfig) (e : Nat) : List TEvent :=
  (if cfg.distributed then [TEvent.setEpoch e] else []) ++
  [TEvent.trainOneEpoch e ((1 : ℚ) / 10) 100] ++
  [TEvent.lrStep] ++
  (if cfg.is_main_process then
    [TEvent.saveCheckpoint (state_dict e cfg.use_ema) (ckptFile cfg.save_dir e)]
   else [])

/-- The event trace of `fit` (lines 24-90): setup, distributed wrapping, then
the loop `for epoch in range(last_epoch + 1, epoch)`.  (The `print` calls,
parameter count, and wall-clock timing on lines 67-70 and 72/88-90 have no
effect on state and are omitted.) -/
def fit (cfg : FitConfig) : List TEvent :=
  preDist cfg ++ distWrap cfg ++
    (pyRange (last_epoch cfg + 1) cfg.epoch).flatMap (epochBody cfg)

/-- Selector for checkpoint-save events. -/
def saveSel : TEvent → Option (SavedState × String)
  | TEvent.saveCheckpoint s f => some (s, f)
  | _ => none

/-- The checkpoints written by a trace, in order: (serialized record, path). -/
def savedStates (tr : List TEvent) : List (SavedState × String) := tr.filterMap saveSel

/-- Epoch fields of the checkpoints written by a trace, in order. -/
def savedEpochs (tr : List TEvent) : List Nat := (savedStates tr).map (fun p => p.1.epoch)

/-- File names of the checkpoints written by a trace, in order. -/
def savedFiles (tr : List TEvent) : List String := (savedStates tr).map (fun p => p.2)

/-- Selector for training-epoch events. -/
def trainSel : TEvent → Option Nat
  | TEvent.trainOneEpoch e _ _ => some e
  | _ => none

/-- The epochs a trace actually trains, in order. -/
def trainedEpochs (tr : List TEvent) : List Nat := tr.filterMap trainSel

/-- The last epoch a run of `fit` completes: the final trained epoch, or the
resume point when the loop body never runs. -/
def finalEpoch (cfg : FitConfig) : Nat :=
  (trainedEpochs (fit cfg)).foldl (fun _ e => e) (last_epoch cfg)

/-- A single-process run configuration (not distributed, and the sole process
is the coordinating one), with all optional collaborators defaulted. -/
def mkCfg (wp : Option Checkpoint) (sd : String) (E : Nat) (amp ema : Bool) : FitConfig :=
  { weight_path := wp, save_dir := sd, epoch := E, use_amp := amp, use_ema := ema,
    criterion_given := false, train_loader_given := false, val_loader_given := false,
    distributed := false, is_main_process := true }

/-- Events that can occur in the epoch loop (and nowhere else). -/
def loopEvt : TEvent → Bool
  | TEvent.setEpoch _ => true
  | TEvent.trainOneEpoch _ _ _ => true
  | TEvent.lrStep => true
  | TEvent.saveCheckpoint _ _ => true
  | _ => false

/-- Whether `needle` occurs at the head of `hay` (character lists). -/
def leadsWith : List Char → List Char → Bool
  | [], _ => true
  | _ :: _, [] => false
  | c :: cs, d :: ds => c == d && leadsWith cs ds

/-- Whether `needle` occurs as a contiguous run anywhere in `hay`. -/
def hasSub (needle : List Char) : List Char → Bool
  | [] => leadsWith needle []
  | c :: t => leadsWith needle (c :: t) || hasSub needle t

/-- Python's `sub in s` on strings: substring membership. -/
def pyIn (sub s : String) : Bool := hasSub sub.data s.data

/-- Which weight mapping `val` loads into the model (line 111-114): the
`state['ema']['module']` sub-state or the plain `state['model']` mapping. -/
inductive LoadSource where
  | emaModule
  | plainModel
deriving DecidableEq, Repr

/-- Observable events of `val`, one constructor per side-effecting call in the
source, in source order. -/
inductive VEvent where
  | defaultCriterion
  | defaultValLoader
  | modelEval
  | criterionEval
  | buildEvaluator (iouTypes : List String)
  | loadFromUrl (path : String)
  | loadFromFile (path : String)
  | loadStateDict (src : LoadSource) (strict : Bool)
  | modelToDevice
  | criterionToDevice
  | batchToDevice (ids : List Nat)
  | forwardBatch (ids : List Nat)
  | postprocessBatch (ids : List Nat)
  | evaluatorUpdate (ids : List Nat)
  | mlSync
  | evalSync
  | accumulate
  | summarize
  | noGradBegin
  | noGradEnd
deriving DecidableEq, Repr

/-- Arguments of `val` plus the ambient data its control flow branches on:
`state_has_ema path` is whether the checkpoint loaded from `path` has an
`'ema'` key (line 111); `iou_types` comes from the constructed
postprocessor (line 105); `batches` is the validation stream, each batch
listed by the `image_id`s of its targets; `stats_of` is the opaque statistic
vector the metric accumulator produces per task type (lines 153/155). -/
structure ValConfig where
  weight_path : Option String
  state_has_ema : String → Bool
  criterion_given : Bool
  val_loader_given : Bool
  iou_types : List String
  batches : List (List Nat)
  stats_of : String → List ℚ

/-- Lines 95-118 of `val`: default collaborators, eval-mode switches,
evaluator construction, optional weight loading (remote vs local decided by
`'http' in weight_path`; EMA sub-state preferred, both non-strict), then
device placement. -/
def valSetup (cfg : ValConfig) : List VEvent :=
  (if cfg.criterion_given then [] else [VEvent.defaultCriterion]) ++
  (if cfg.val_loader_given then [] else [VEvent.defaultValLoader]) ++
  [VEvent.modelEval, VEvent.criterionEval] ++
  [VEvent.buildEvaluator cfg.iou_types] ++
  (match cfg.weight_path with
   | none => []
   | some wp =>
     [if pyIn "http" wp then VEvent.loadFromUrl wp else VEvent.loadFromFile wp] ++
     [if cfg.state_has_ema wp then VEvent.loadStateDict LoadSource.emaModule false
      else VEvent.loadStateDict LoadSource.plainModel false]) ++
  [VEvent.modelToDevice, VEvent.criterionToDevice]

/-- Lines 124-135: the evaluation loop, one pass per batch: move batch to
device, forward, postprocess, feed the image_id-keyed results to the
evaluator. -/
def valBatchLoop (cfg : ValConfig) : List VEvent :=
  cfg.batches.flatMap (fun b =>
    [VEvent.batchToDevice b, VEvent.forwardBatch b,
     VEvent.postprocessBatch b, VEvent.evaluatorUpdate b])

/-- Lines 138-147: synchronize the metric logger and the evaluator across
processes, then accumulate and summarize.  (`coco_evaluator` is always
constructed on line 106, so the `is not None` guards are taken; the
`panoptic_evaluator` is `None`, so its sync is skipped.) -/
def valFinal : List VEvent :=
  [VEvent.mlSync, VEvent.evalSync, VEvent.accumulate, VEvent.summarize]

/-- The event trace of `val` (lines 93-157).  The whole body runs under the
`@torch.no_grad()` decorator, modelled as a bracket around the trace. -/
def valTrace (cfg : ValConfig) : List VEvent :=
  [VEvent.noGradBegin] ++ valSetup cfg ++ valBatchLoop cfg ++ valFinal ++ [VEvent.noGradEnd]

/-- Lines 149-155: the `stats` mapping returned by `val`. -/
def valStats (cfg : ValConfig) : List (String × List ℚ) :=
  (if "bbox" ∈ cfg.iou_types then [("coco_eval_bbox", cfg.stats_of "bbox")] else []) ++
  (if "segm" ∈ cfg.iou_types then [("coco_eval_masks", cfg.stats_of "segm")] else [])

/-- The image ids accumulated by the evaluator over the run: one `update` per
batch, keyed by `image_id`. -/
def evaluatorIds (cfg : ValConfig) : List Nat := cfg.batches.flatMap (fun b => b)

/-- The value returned by `val` (line 157): the stats mapping and the
populated evaluator. -/
def valReturn (cfg : ValConfig) : List (String × List ℚ) × List Nat :=
  (valStats cfg, evaluatorIds cfg)

/-- Events produced by the evaluation batch loop (and nowhere else). -/
def batchEvt : VEvent → Bool
  | VEvent.batchToDevice _ => true
  | VEvent.forwardBatch _ => true
  | VEvent.postprocessBatch _ => true
  | VEvent.evaluatorUpdate _ => true
  | _ => false

/-- Events produced by the setup part of `val` (and nowhere else). -/
def vSetupEvt : VEvent → Bool
  | VEvent.defaultCriterion => true
  | VEvent.defaultValLoader => true
  | VEvent.modelEval => true
  | VEvent.criterionEval => true
  | VEvent.buildEvaluator _ => true
  | VEvent.loadFromUrl _ => true
  | VEvent.loadFromFile _ => true
  | VEvent.loadStateDict _ _ => true
  | VEvent.modelToDevice => true
  | VEvent.criterionToDevice => true
  | _ => false

/-- One concrete evaluation configuration: a local (non-URL) weight path whose
loaded state carries an EMA sub-state, one supported task type, two batches. -/
def valCfgA : ValConfig :=
  { weight_path := some "w.pth", state_has_ema := fun _ => true,
    criterion_given := false, val_loader_given := false,
    iou_types := ["bbox"], batches := [[1, 2], [3]], stats_of := fun _ => [] }

/-- A weight path that is a local filesystem path yet contains `http` as a
substring. -/
def valCfgB : ValConfig :=
  { weight_path := some "/data/httpmodels/w.pth", state_has_ema := fun _ => false,
    criterion_given := false, val_loader_given := false,
    iou_types := ["bbox"], batches := [], stats_of := fun _ => [] }

theorem mem_epochBody_loopEvt (cfg : FitConfig) (e : Nat) (ev : TEvent)
    (h : ev ∈ epochBody cfg e) : loopEvt ev = true := by
  revert h
  cases hd : cfg.distributed <;> cases hm : cfg.is_main_process <;>
    simp [epochBody, hd, hm] <;>
    rintro (rfl | rfl | rfl | rfl) <;> rfl

theorem mem_loop_loopEvt (cfg : FitConfig) (l : List Nat) (ev : TEvent)
    (h : ev ∈ l.flatMap (epochBody cfg)) : loopEvt ev = true := by
  induction l with
  | nil => simp at h
  | cons a t ih =>
    rw [List.flatMap_cons, List.mem_append] at h
    rcases h with h | h
    · exact mem_epochBody_loopEvt cfg a ev h
    · exact ih h

theorem mem_preDist_not_loopEvt (cfg : FitConfig) (ev : TEvent)
    (h : ev ∈ preDist cfg) : loopEvt ev = false := by
  revert h
  cases hw : cfg.weight_path <;>
    cases hc : cfg.criterion_given <;> cases ht : cfg.train_loader_given <;>
    cases hv : cfg.val_loader_given <;> cases ha : cfg.use_amp <;>
    cases he : cfg.use_ema <;>
    simp [preDist, hw, hc, ht, hv, ha, he] <;>
    rintro (rfl | rfl | rfl | rfl | rfl | rfl | rfl | rfl | rfl | rfl) <;> rfl

theorem mem_distWrap_not_loopEvt (cfg : FitConfig) (ev : TEvent)
    (h : ev ∈ distWrap cfg) : loopEvt ev = false := by
  revert h
  cases hd : cfg.distributed <;> simp [distWrap, hd] <;>
    rintro (rfl | rfl | rfl) <;> rfl

theorem trainSel_epochBody (cfg : FitConfig) (e : Nat) :
    (epochBody cfg e).filterMap trainSel = [e] := by
  cases hd : cfg.distributed <;> cases hm : cfg.is_main_process <;>
    simp [epochBody, hd, hm, trainSel]

theorem saveSel_epochBody (cfg : FitConfig) (e : Nat) :
    (epochBody cfg e).filterMap saveSel =
      if cfg.is_main_process then
        [(state_dict e cfg.use_ema, ckptFile cfg.save_dir e)]
      else [] := by
  cases hd : cfg.distributed <;> cases hm : cfg.is_main_process <;>
    simp [epochBody, hd, hm, saveSel]

theorem trainSel_preDist (cfg : FitConfig) : (preDist cfg).filterMap trainSel = [] := by
  rw [List.filterMap_eq_nil_iff]
  intro ev h
  have h2 := mem_preDist_not_loopEvt cfg ev h
  cases ev <;> simp_all [loopEvt, trainSel]

theorem saveSel_preDist (cfg : FitConfig) : (preDist cfg).filterMap saveSel = [] := by
  rw [List.filterMap_eq_nil_iff]
  intro ev h
  have h2 := mem_preDist_not_loopEvt cfg ev h
  cases ev <;> simp_all [loopEvt, saveSel]

theorem trainSel_distWrap (cfg : FitConfig) : (distWrap cfg).filterMap trainSel = [] := by
  cases hd : cfg.distributed <;> simp [distWrap, hd, trainSel]

theorem saveSel_distWrap (cfg : FitConfig) : (distWrap cfg).filterMap saveSel = [] := by
  cases hd : cfg.distributed <;> simp [distWrap, hd, saveSel]

theorem trainSel_loop (cfg : FitConfig) (l : List Nat) :
    (l.flatMap (epochBody cfg)).filterMap trainSel = l := by
  induction l with
  | nil => simp
  | cons a t ih =>
    rw [List.flatMap_cons, List.filterMap_append, trainSel_epochBody, ih]
    rfl

theorem saveSel_loop (cfg : FitConfig) (l : List Nat) :
    (l.flatMap (epochBody cfg)).filterMap saveSel =
      if cfg.is_main_process then
        l.map (fun e => (state_dict e cfg.use_ema, ckptFile cfg.save_dir e))
      else [] := by
  induction l with
  | nil => cases hm : cfg.is_main_process <;> simp
  | cons a t ih =>
    rw [List.flatMap_cons, List.filterMap_append, saveSel_epochBody, ih]
    cases hm : cfg.is_main_process <;> simp

/-- The epochs a run of `fit` trains are exactly `range(last_epoch + 1, epoch)`. -/
theorem trainedEpochs_fit (cfg : FitConfig) :
    trainedEpochs (fit cfg) = pyRange (last_epoch cfg + 1) cfg.epoch := by
  rw [trainedEpochs, fit, List.filterMap_append, List.filterMap_append,
    trainSel_preDist, trainSel_distWrap, trainSel_loop]
  rfl

/-- The checkpoints a run of `fit` writes: one per trained epoch on the
coordinating process, none elsewhere. -/
theorem savedStates_fit (cfg : FitConfig) :
    savedStates (fit cfg) =
      if cfg.is_main_process then
        (pyRange (last_epoch cfg + 1) cfg.epoch).map
          (fun e => (state_dict e cfg.use_ema, ckptFile cfg.save_dir e))
      else [] := by
  rw [savedStates, fit, List.filterMap_append, List.filterMap_append,
    saveSel_preDist, saveSel_distWrap, saveSel_loop]
  rfl

theorem foldl_last_range' (n a i : Nat) :
    (List.range' a n).foldl (fun _ e => e) i = if n = 0 then i else a + n - 1 := by
  induction n generalizing a i with
  | zero => rfl
  | succ m ih =>
    rw [List.range'_succ, List.foldl_cons, ih]
    cases m <;> simp <;> omega

/-- Splitting the epoch loop at one iterate `e` with `a ≤ e < b`. -/
theorem flatMap_pyRange_split {α : Type} (f : Nat → List α) (a e b : Nat)
    (h1 : a ≤ e) (h2 : e < b) :
    (pyRange a b).flatMap f =
      (pyRange a e).flatMap f ++ f e ++ (pyRange (e + 1) b).flatMap f := by
  have hsplit : pyRange a b = pyRange a e ++ (e :: pyRange (e + 1) b) := by
    have h4 := List.range'_append a (e - a) (b - e) 1
    have he : a + 1 * (e - a) = e := by omega
    have hb : b - e + (e - a) = b - a := by omega
    rw [he, hb] at h4
    have hk : b - e = (b - e - 1) + 1 := by omega
    rw [hk, List.range'_succ] at h4
    have hb2 : b - e - 1 = b - (e + 1) := by omega
    rw [hb2] at h4
    simp only [pyRange]
    exact h4.symm
  rw [hsplit, List.flatMap_append, List.flatMap_cons, List.append_assoc]

theorem scaler_mem_preDist (cfg : FitConfig) :
    TEvent.constructScaler ∈ preDist cfg ↔ cfg.use_amp = true := by
  cases hw : cfg.weight_path <;>
    simp only [preDist, hw, List.mem_append] <;> split_ifs <;> simp_all

theorem ema_mem_preDist (cfg : FitConfig) (d : ℚ) (w : Nat) :
    TEvent.constructEMA d w ∈ preDist cfg ↔
      cfg.use_ema = true ∧ d = (9999 : ℚ) / 10000 ∧ w = 2000 := by
  cases hw : cfg.weight_path <;>
    simp only [preDist, hw, List.mem_append] <;> split_ifs <;> simp_all

theorem lrs_mem_preDist (cfg : FitConfig) (ms : List Nat) (g : ℚ) :
    TEvent.constructLRScheduler ms g ∈ preDist cfg ↔
      ms = [1000] ∧ g = (1 : ℚ) / 10 := by
  cases hw : cfg.weight_path <;>
    simp only [preDist, hw, List.mem_append] <;> split_ifs <;> simp_all

theorem warp_not_mem_preDist (cfg : FitConfig) :
    TEvent.warpModel ∉ preDist cfg ∧ TEvent.warpTrainLoader ∉ preDist cfg ∧
      TEvent.warpValLoader ∉ preDist cfg := by
  cases hw : cfg.weight_path <;>
    simp only [preDist, hw, List.mem_append] <;> split_ifs <;> simp_all

theorem leadsWith_iff (n h : List Char) :
    leadsWith n h = true ↔ ∃ q, h = n ++ q := by
  induction n generalizing h with
  | nil => simp [leadsWith]
  | cons c cs ih =>
    cases h with
    | nil => simp [leadsWith]
    | cons d ds =>
      rw [leadsWith, Bool.and_eq_true, beq_iff_eq, ih]
      constructor
      · rintro ⟨rfl, q, rfl⟩; exact ⟨q, rfl⟩
      · rintro ⟨q, hq⟩
        injection hq with h1 h2
        exact ⟨h1.symm, q, h2⟩

theorem hasSub_iff (n h : List Char) :
    hasSub n h = true ↔ ∃ p q, h = p ++ n ++ q := by
  induction h with
  | nil =>
    rw [hasSub, leadsWith_iff]
    constructor
    · rintro ⟨q, hq⟩; exact ⟨[], q, by simpa using hq⟩
    · rintro ⟨p, q, hq⟩
      have h0 : p = [] ∧ n = [] ∧ q = [] := by
        simpa [List.append_assoc] using hq.symm
      exact ⟨q, by simp [h0.2.1, h0.2.2]⟩
  | cons c t ih =>
    rw [hasSub, Bool.or_eq_true, leadsWith_iff, ih]
    constructor
    · rintro (⟨q, hq⟩ | ⟨p, q, hq⟩)
      · exact ⟨[], q, by simpa using hq⟩
      · exact ⟨c :: p, q, by simp [hq]⟩
    · rintro ⟨p, q, hq⟩
      cases p with
      | nil => exact Or.inl ⟨q, by simpa using hq⟩
      | cons x xs =>
        injection hq with h1 h2
        exact Or.inr ⟨xs, q, h2⟩

theorem mem_valBatchLoop_batchEvt (cfg : ValConfig) (ev : VEvent)
    (h : ev ∈ valBatchLoop cfg) : batchEvt ev = true := by
  rw [valBatchLoop] at h
  generalize cfg.batches = bs at h
  induction bs with
  | nil => simp at h
  | cons b t ih =>
    rw [List.flatMap_cons, List.mem_append] at h
    rcases h with h | h
    · simp only [List.mem_cons, List.not_mem_nil, or_false] at h
      rcases h with rfl | rfl | rfl | rfl <;> rfl
    · exact ih h

theorem not_batchEvt_not_mem_loop (cfg : ValConfig) (ev : VEvent)
    (h : batchEvt ev = false) : ev ∉ valBatchLoop cfg := by
  intro hc
  rw [mem_valBatchLoop_batchEvt cfg ev hc] at h
  exact Bool.noConfusion h

theorem mem_valSetup_vSetupEvt (cfg : ValConfig) (ev : VEvent)
    (h : ev ∈ valSetup cfg) : vSetupEvt ev = true := by
  revert h
  cases hw : cfg.weight_path with
  | none =>
    cases hc : cfg.criterion_given <;> cases hv : cfg.val_loader_given <;>
      simp [valSetup, hw, hc, hv] <;>
      rintro (rfl | rfl | rfl | rfl | rfl | rfl | rfl | rfl) <;> rfl
  | some wp =>
    cases hc : cfg.criterion_given <;> cases hv : cfg.val_loader_given <;>
      cases hh : pyIn "http" wp <;> cases he : cfg.state_has_ema wp <;>
      simp [valSetup, hw, hc, hv, hh, he] <;>
      rintro (rfl | rfl | rfl | rfl | rfl | rfl | rfl | rfl | rfl | rfl) <;> rfl

theorem not_vSetupEvt_not_mem_setup (cfg : ValConfig) (ev : VEvent)
    (h : vSetupEvt ev = false) : ev ∉ valSetup cfg := by
  intro hc
  rw [mem_valSetup_vSetupEvt cfg ev hc] at h
  exact Bool.noConfusion h

/-- Claim C1 (counterexample): for a fresh run with target `epoch = 3`, EMA and
AMP disabled, on a single process, the loop `for epoch in range(last_epoch + 1,
epoch)` runs epochs 1 and 2 only (`range` excludes its upper bound), so exactly
two checkpoints are written, `1.pth` and `2.pth`; the claimed three files
`1.pth`, `2.pth`, `3.pth` are not produced. -/
theorem fit_fresh_three_claim_false :
    savedFiles (fit (mkCfg none "ckpt" 3 false false)) = ["ckpt/1.pth", "ckpt/2.pth"] ∧
    savedEpochs (fit (mkCfg none "ckpt" 3 false false)) = [1, 2] ∧
    savedFiles (fit (mkCfg none "ckpt" 3 false false)) ≠
      ["ckpt/1.pth", "ckpt/2.pth", "ckpt/3.pth"] := by
  decide

/-- Claim C1 (amended): for every fresh (non-resumed) single-process training
run of `fit` with target epoch count 3 and `use_ema`/`use_amp` disabled,
exactly two checkpoint files, `1.pth` and `2.pth`, are written under
`save_dir`, with serialized epoch fields 1 and 2: the loop's upper bound is
exclusive, so epoch 3 itself is never run or checkpointed. -/
theorem fit_fresh_three_writes_two (sd : String) :
    savedStates (fit (mkCfg none sd 3 false false)) =
      [(state_dict 1 false, ckptFile sd 1), (state_dict 2 false, ckptFile sd 2)] ∧
    savedEpochs (fit (mkCfg none sd 3 false false)) = [1, 2] := by
  exact ⟨rfl, rfl⟩

/-- Claim C1 (amended, witness): the amended statement at `save_dir = "ckpt"`. -/
theorem fit_fresh_three_writes_two_witness :
    savedStates (fit (mkCfg none "ckpt" 3 false false)) =
      [(state_dict 1 false, ckptFile "ckpt" 1), (state_dict 2 false, ckptFile "ckpt" 2)] ∧
    savedEpochs (fit (mkCfg none "ckpt" 3 false false)) = [1, 2] :=
  fit_fresh_three_writes_two "ckpt"

/-- Claim C2 (counterexample): resuming from the checkpoint saved at epoch 2
with target `epoch = 4` runs the loop over `range(3, 4) = [3]` only: the one
checkpoint written is `3.pth` (epoch field 3), regenerating the pre-existing
`3.pth`; `4.pth` is never written, refuting the claim. -/
theorem fit_resume_claim_false :
    savedFiles (fit (mkCfg (some ⟨2⟩) "ckpt" 4 false false)) = ["ckpt/3.pth"] ∧
    "ckpt/4.pth" ∉ savedFiles (fit (mkCfg (some ⟨2⟩) "ckpt" 4 false false)) ∧
    "ckpt/3.pth" ∈ savedFiles (fit (mkCfg (some ⟨2⟩) "ckpt" 4 false false)) := by
  decide

/-- Claim C2 (amended): for every single-process training run of `fit` resumed
with `weight_path` naming the checkpoint saved at epoch 2 and target epoch
count 4, exactly one checkpoint file is written, namely `3.pth` with epoch
field 3 — overwriting the pre-existing `3.pth`; `4.pth` is never written. -/
theorem fit_resume_writes_three (sd : String) :
    savedStates (fit (mkCfg (some ⟨2⟩) sd 4 false false)) =
      [(state_dict 3 false, ckptFile sd 3)] := by
  exact rfl

/-- Claim C2 (amended, witness): the amended statement at `save_dir = "ckpt2"`. -/
theorem fit_resume_writes_three_witness :
    savedStates (fit (mkCfg (some ⟨2⟩) "ckpt2" 4 false false)) =
      [(state_dict 3 false, ckptFile "ckpt2" 3)] :=
  fit_resume_writes_three "ckpt2"

/-- Claim C3: resuming from a checkpoint saved at epoch `r` with `r < E`
reaches the same final epoch as the identical run from scratch; the resumed
loop iterates exactly over `range(r + 1, E)` (so it starts at `r + 1`), and
every checkpoint it writes has epoch number strictly greater than `r`. -/
theorem fit_resume_consistent (cfg : FitConfig) (r : Nat)
    (hw : cfg.weight_path = some ⟨r⟩) (hr : r < cfg.epoch) :
    finalEpoch cfg = finalEpoch { cfg with weight_path := none } ∧
    trainedEpochs (fit cfg) = pyRange (r + 1) cfg.epoch ∧
    (∀ e ∈ savedEpochs (fit cfg), r < e) := by
  have hle : last_epoch cfg = r := by simp [last_epoch, hw, load_tuning_state]
  have hle0 : last_epoch { cfg with weight_path := none } = 0 := by simp [last_epoch]
  refine ⟨?_, ?_, ?_⟩
  · rw [finalEpoch, finalEpoch, trainedEpochs_fit, trainedEpochs_fit, hle, hle0,
      pyRange, pyRange, foldl_last_range', foldl_last_range']
    have hE : ({ cfg with weight_path := none } : FitConfig).epoch = cfg.epoch := rfl
    rw [hE]
    split_ifs <;> omega
  · rw [trainedEpochs_fit, hle]
  · intro e he
    rw [savedEpochs, savedStates_fit, hle] at he
    cases hm : cfg.is_main_process with
    | false => rw [hm] at he; simp at he
    | true =>
      rw [hm] at he
      simp only [if_true, List.map_map, List.mem_map] at he
      obtain ⟨x, hx, hxe⟩ := he
      rw [pyRange, List.mem_range'_1] at hx
      have : e = x := by rw [← hxe]; rfl
      omega

/-- Claim C3 (witness): concrete instance resuming from epoch 2 toward
target 5. -/
theorem fit_resume_consistent_witness :
    finalEpoch (mkCfg (some ⟨2⟩) "ckpt" 5 false false) =
      finalEpoch { mkCfg (some ⟨2⟩) "ckpt" 5 false false with weight_path := none } ∧
    trainedEpochs (fit (mkCfg (some ⟨2⟩) "ckpt" 5 false false)) = pyRange 3 5 ∧
    (∀ e ∈ savedEpochs (fit (mkCfg (some ⟨2⟩) "ckpt" 5 false false)), 2 < e) :=
  fit_resume_consistent (mkCfg (some ⟨2⟩) "ckpt" 5 false false) 2 rfl (by decide)

/-- Claim C4: every iteration of the epoch loop of `fit` performs, contiguously
and in this strict order: the distributed-only `sampler.set_epoch(e)`, then the
full training pass `train_one_epoch` at epoch `e` with gradient-clipping norm
0.1 and logging cadence 100, then one `lr_scheduler.step()`, then the
rank-gated write of the checkpoint record (epoch number, model weights, EMA
weights iff EMA is enabled) to `save_dir/e.pth`; in particular the
learning-rate advancement and the checkpoint write come strictly after the
epoch's training pass (which contains all of its optimizer steps). -/
theorem fit_epoch_order (cfg : FitConfig) (e : Nat)
    (h1 : last_epoch cfg + 1 ≤ e) (h2 : e < cfg.epoch) :
    ∃ l1 l2, fit cfg =
      l1 ++ ((if cfg.distributed then [TEvent.setEpoch e] else []) ++
        [TEvent.trainOneEpoch e ((1 : ℚ) / 10) 100] ++
        [TEvent.lrStep] ++
        (if cfg.is_main_process then
          [TEvent.saveCheckpoint (state_dict e cfg.use_ema) (ckptFile cfg.save_dir e)]
         else [])) ++ l2 := by
  refine ⟨preDist cfg ++ distWrap cfg ++ (pyRange (last_epoch cfg + 1) e).flatMap (epochBody cfg),
    (pyRange (e + 1) cfg.epoch).flatMap (epochBody cfg), ?_⟩
  rw [fit, flatMap_pyRange_split (epochBody cfg) (last_epoch cfg + 1) e cfg.epoch h1 h2]
  simp [epochBody, List.append_assoc]

/-- Claim C4 (witness): concrete instance, distributed run, epoch 1 of a
2-epoch budget. -/
theorem fit_epoch_order_witness :
    ∃ l1 l2,
      fit { mkCfg none "d" 2 false false with distributed := true } =
        l1 ++ ([TEvent.setEpoch 1] ++
          [TEvent.trainOneEpoch 1 ((1 : ℚ) / 10) 100] ++
          [TEvent.lrStep] ++
          [TEvent.saveCheckpoint (state_dict 1 false) (ckptFile "d" 1)]) ++ l2 :=
  fit_epoch_order { mkCfg none "d" 2 false false with distributed := true } 1
    (by decide) (by decide)

/-- Claim C5: in every call to `fit`, a gradient scaler is constructed iff
`use_amp` is enabled; an EMA shadow manager is constructed iff `use_ema` is
enabled, and only with decay 0.9999 and 2000 warmup steps; and a step-wise
learning-rate schedule is always constructed, only with milestone list [1000]
and factor 0.1. -/
theorem fit_component_construction (cfg : FitConfig) :
    (TEvent.constructScaler ∈ fit cfg ↔ cfg.use_amp = true) ∧
    (TEvent.constructEMA ((9999 : ℚ) / 10000) 2000 ∈ fit cfg ↔ cfg.use_ema = true) ∧
    TEvent.constructLRScheduler [1000] ((1 : ℚ) / 10) ∈ fit cfg ∧
    (∀ d w, TEvent.constructEMA d w ∈ fit cfg → d = (9999 : ℚ) / 10000 ∧ w = 2000) ∧
    (∀ ms g, TEvent.constructLRScheduler ms g ∈ fit cfg → ms = [1000] ∧ g = (1 : ℚ) / 10) := by
  have hloop : ∀ ev : TEvent, ev ∈ (pyRange (last_epoch cfg + 1) cfg.epoch).flatMap (epochBody cfg) →
      loopEvt ev = true := fun ev h => mem_loop_loopEvt cfg _ ev h
  have hwrap : ∀ ev : TEvent, ev ∈ distWrap cfg →
      ev = TEvent.warpTrainLoader ∨ ev = TEvent.warpValLoader ∨ ev = TEvent.warpModel := by
    intro ev h
    revert h
    cases hd : cfg.distributed <;> simp [distWrap, hd]
  refine ⟨?_, ?_, ?_, ?_, ?_⟩
  · rw [fit, List.mem_append, List.mem_append, scaler_mem_preDist]
    constructor
    · rintro ((h | h) | h)
      · exact h
      · rcases hwrap _ h with h | h | h <;> exact TEvent.noConfusion h
      · exact absurd (hloop _ h) (by simp [loopEvt])
    · intro h; exact Or.inl (Or.inl h)
  · rw [fit, List.mem_append, List.mem_append, ema_mem_preDist]
    constructor
    · rintro ((h | h) | h)
      · exact h.1
      · rcases hwrap _ h with h | h | h <;> exact TEvent.noConfusion h
      · exact absurd (hloop _ h) (by simp [loopEvt])
    · intro h; exact Or.inl (Or.inl ⟨h, rfl, rfl⟩)
  · rw [fit, List.mem_append, List.mem_append, lrs_mem_preDist]
    exact Or.inl (Or.inl ⟨rfl, rfl⟩)
  · intro d w h
    rw [fit, List.mem_append, List.mem_append, ema_mem_preDist] at h
    rcases h with (h | h) | h
    · exact ⟨h.2.1, h.2.2⟩
    · rcases hwrap _ h with h | h | h <;> exact TEvent.noConfusion h
    · exact absurd (hloop _ h) (by simp [loopEvt])
  · intro ms g h
    rw [fit, List.mem_append, List.mem_append, lrs_mem_preDist] at h
    rcases h with (h | h) | h
    · exact h
    · rcases hwrap _ h with h | h | h <;> exact TEvent.noConfusion h
    · exact absurd (hloop _ h) (by simp [loopEvt])

/-- Claim C5 (witness): concrete instance of the scaler-iff-amp part. -/
theorem fit_component_construction_witness :
    TEvent.constructScaler ∈ fit (mkCfg none "w" 2 true true) ↔
      (mkCfg none "w" 2 true true).use_amp = true :=
  (fit_component_construction (mkCfg none "w" 2 true true)).1

/-- Claim C6: when distributed mode is active, `fit` wraps the train loader,
the val loader and the model (in that order, contiguously), and this block
occurs strictly after the model is moved to its device; when distributed mode
is inactive, no wrapping event occurs at all. -/
theorem fit_dist_wrapping (cfg : FitConfig) :
    (cfg.distributed = false →
      TEvent.warpModel ∉ fit cfg ∧ TEvent.warpTrainLoader ∉ fit cfg ∧
        TEvent.warpValLoader ∉ fit cfg) ∧
    (cfg.distributed = true →
      ∃ l1 l2,
        fit cfg = l1 ++ [TEvent.warpTrainLoader, TEvent.warpValLoader, TEvent.warpModel] ++ l2 ∧
          TEvent.modelToDevice ∈ l1) := by
  constructor
  · intro hd
    have hpre := warp_not_mem_preDist cfg
    have hnw : ∀ ev : TEvent, loopEvt ev = false → ev ∉ fit cfg ∨ ev ∈ preDist cfg := by
      intro ev hev
      by_cases h : ev ∈ fit cfg
      · right
        rw [fit, List.mem_append, List.mem_append] at h
        rcases h with (h | h) | h
        · exact h
        · rw [distWrap, hd] at h; simp at h
        · exact absurd (mem_loop_loopEvt cfg _ ev h) (by simp [hev])
      · left; exact h
    refine ⟨?_, ?_, ?_⟩
    · rcases hnw TEvent.warpModel rfl with h | h
      · exact h
      · exact absurd h hpre.1
    · rcases hnw TEvent.warpTrainLoader rfl with h | h
      · exact h
      · exact absurd h hpre.2.1
    · rcases hnw TEvent.warpValLoader rfl with h | h
      · exact h
      · exact absurd h hpre.2.2
  · intro hd
    refine ⟨preDist cfg, (pyRange (last_epoch cfg + 1) cfg.epoch).flatMap (epochBody cfg), ?_, ?_⟩
    · rw [fit, distWrap, hd]
      simp [List.append_assoc]
    · simp [preDist, List.mem_append]

/-- Claim C6 (witness): concrete distributed instance. -/
theorem fit_dist_wrapping_witness :
    ∃ l1 l2,
      fit { mkCfg none "d" 2 false false with distributed := true } =
        l1 ++ [TEvent.warpTrainLoader, TEvent.warpValLoader, TEvent.warpModel] ++ l2 ∧
        TEvent.modelToDevice ∈ l1 :=
  (fit_dist_wrapping { mkCfg none "d" 2 false false with distributed := true }).2 rfl

/-- Claim C7: with a weight source, `val` loads it from the remote-fetch
origin or the local-file origin (exactly one of the two, decided by `'http'`
membership), then loads the EMA sub-state into the model when the loaded
state has one and the plain model weights otherwise — every such load is
non-strict (`strict=False`); with no weight source, no loading event of any
kind occurs. -/
theorem val_weight_loading (cfg : ValConfig) :
    (∀ wp, cfg.weight_path = some wp →
      ((pyIn "http" wp = true → VEvent.loadFromUrl wp ∈ valTrace cfg ∧
          (∀ p, VEvent.loadFromFile p ∉ valTrace cfg)) ∧
       (pyIn "http" wp = false → VEvent.loadFromFile wp ∈ valTrace cfg ∧
          (∀ p, VEvent.loadFromUrl p ∉ valTrace cfg)) ∧
       (cfg.state_has_ema wp = true →
          VEvent.loadStateDict LoadSource.emaModule false ∈ valTrace cfg ∧
          (∀ b, VEvent.loadStateDict LoadSource.plainModel b ∉ valTrace cfg)) ∧
       (cfg.state_has_ema wp = false →
          VEvent.loadStateDict LoadSource.plainModel false ∈ valTrace cfg ∧
          (∀ b, VEvent.loadStateDict LoadSource.emaModule b ∉ valTrace cfg)) ∧
       (∀ src b, VEvent.loadStateDict src b ∈ valTrace cfg → b = false))) ∧
    (cfg.weight_path = none →
      (∀ p, VEvent.loadFromUrl p ∉ valTrace cfg) ∧
      (∀ p, VEvent.loadFromFile p ∉ valTrace cfg) ∧
      (∀ src b, VEvent.loadStateDict src b ∉ valTrace cfg)) := by
  have hnl1 : ∀ p, VEvent.loadFromUrl p ∉ valBatchLoop cfg :=
    fun p => not_batchEvt_not_mem_loop cfg _ rfl
  have hnl2 : ∀ p, VEvent.loadFromFile p ∉ valBatchLoop cfg :=
    fun p => not_batchEvt_not_mem_loop cfg _ rfl
  have hnl3 : ∀ s b, VEvent.loadStateDict s b ∉ valBatchLoop cfg :=
    fun s b => not_batchEvt_not_mem_loop cfg _ rfl
  constructor
  · intro wp hw
    cases hh : pyIn "http" wp <;> cases he : cfg.state_has_ema wp <;>
      refine ⟨?_, ?_, ?_, ?_, ?_⟩ <;>
      simp [valTrace, valSetup, valFinal, hw, hh, he, List.mem_append, hnl1, hnl2, hnl3]
  · intro hw
    refine ⟨?_, ?_, ?_⟩ <;> intros <;>
      simp [valTrace, valSetup, valFinal, hw, List.mem_append, hnl1, hnl2, hnl3]

/-- Claim C7 (witness): on `valCfgA`, the EMA sub-state is loaded non-strictly
and the plain model weights are never loaded. -/
theorem val_weight_loading_witness :
    VEvent.loadStateDict LoadSource.emaModule false ∈ valTrace valCfgA ∧
    (∀ b, VEvent.loadStateDict LoadSource.plainModel b ∉ valTrace valCfgA) :=
  ((val_weight_loading valCfgA).1 "w.pth" rfl).2.2.1 rfl

/-- Claim C8: the metric logger and the evaluator are synchronized across
processes strictly before the final metrics are accumulated and summarized
(the four calls occur contiguously, in that order, with no accumulate or
summarize earlier and no sync later); the returned stats mapping holds the
bbox statistic vector under `'coco_eval_bbox'` exactly when `'bbox'` is a
supported task type and the mask statistic vector under `'coco_eval_masks'`
exactly when `'segm'` is; and `val` returns the stats mapping together with
the populated evaluator. -/
theorem val_sync_and_stats (cfg : ValConfig) :
    (∃ l1 l2,
      valTrace cfg =
        l1 ++ [VEvent.mlSync, VEvent.evalSync, VEvent.accumulate, VEvent.summarize] ++ l2 ∧
      VEvent.accumulate ∉ l1 ∧ VEvent.summarize ∉ l1 ∧
      VEvent.mlSync ∉ l2 ∧ VEvent.evalSync ∉ l2) ∧
    ((valReturn cfg).1.lookup "coco_eval_bbox" =
      if "bbox" ∈ cfg.iou_types then some (cfg.stats_of "bbox") else none) ∧
    ((valReturn cfg).1.lookup "coco_eval_masks" =
      if "segm" ∈ cfg.iou_types then some (cfg.stats_of "segm") else none) ∧
    valReturn cfg = (valStats cfg, evaluatorIds cfg) := by
  refine ⟨⟨[VEvent.noGradBegin] ++ valSetup cfg ++ valBatchLoop cfg, [VEvent.noGradEnd],
    ?_, ?_, ?_, ?_, ?_⟩, ?_, ?_, rfl⟩
  · simp [valTrace, valFinal, List.append_assoc]
  · simp [List.mem_append, not_vSetupEvt_not_mem_setup cfg VEvent.accumulate rfl,
      not_batchEvt_not_mem_loop cfg VEvent.accumulate rfl]
  · simp [List.mem_append, not_vSetupEvt_not_mem_setup cfg VEvent.summarize rfl,
      not_batchEvt_not_mem_loop cfg VEvent.summarize rfl]
  · simp
  · simp
  · by_cases hb : "bbox" ∈ cfg.iou_types <;> by_cases hs : "segm" ∈ cfg.iou_types <;>
      simp [valReturn, valStats, hb, hs, List.lookup]
  · by_cases hb : "bbox" ∈ cfg.iou_types <;> by_cases hs : "segm" ∈ cfg.iou_types <;>
      simp [valReturn, valStats, hb, hs, List.lookup]

/-- Claim C8 (witness): concrete instance on `valCfgA` (bbox supported, segm
not). -/
theorem val_sync_and_stats_witness :
    (valReturn valCfgA).1.lookup "coco_eval_bbox" =
      (if "bbox" ∈ valCfgA.iou_types then some (valCfgA.stats_of "bbox") else none) :=
  (val_sync_and_stats valCfgA).2.1

/-- Claim C9: the entire body of `val` executes inside the `@torch.no_grad()`
bracket (no event falls outside it), and the model and criterion are switched
to evaluation mode strictly before the batch loop — before any forward pass. -/
theorem val_no_grad_and_eval_mode (cfg : ValConfig) :
    (valTrace cfg =
        [VEvent.noGradBegin] ++ (valSetup cfg ++ valBatchLoop cfg ++ valFinal) ++
          [VEvent.noGradEnd] ∧
      VEvent.noGradBegin ∉ valSetup cfg ++ valBatchLoop cfg ++ valFinal ∧
      VEvent.noGradEnd ∉ valSetup cfg ++ valBatchLoop cfg ++ valFinal) ∧
    (∃ l1 l2, valTrace cfg = l1 ++ valBatchLoop cfg ++ l2 ∧
      VEvent.modelEval ∈ l1 ∧ VEvent.criterionEval ∈ l1 ∧
      (∀ b, VEvent.forwardBatch b ∉ l1)) := by
  constructor
  · refine ⟨by simp [valTrace, List.append_assoc], ?_, ?_⟩ <;>
      simp [List.mem_append, valFinal,
        not_vSetupEvt_not_mem_setup cfg VEvent.noGradBegin rfl,
        not_vSetupEvt_not_mem_setup cfg VEvent.noGradEnd rfl,
        not_batchEvt_not_mem_loop cfg VEvent.noGradBegin rfl,
        not_batchEvt_not_mem_loop cfg VEvent.noGradEnd rfl]
  · refine ⟨[VEvent.noGradBegin] ++ valSetup cfg, valFinal ++ [VEvent.noGradEnd],
      by simp [valTrace, List.append_assoc], ?_, ?_, ?_⟩
    · cases hw : cfg.weight_path <;> simp [valSetup, hw, List.mem_append]
    · cases hw : cfg.weight_path <;> simp [valSetup, hw, List.mem_append]
    · intro b
      simp [List.mem_append, not_vSetupEvt_not_mem_setup cfg (VEvent.forwardBatch b) rfl]

/-- Claim C9 (witness): concrete instance on `valCfgA`. -/
theorem val_no_grad_and_eval_mode_witness :
    ∃ l1 l2, valTrace valCfgA = l1 ++ valBatchLoop valCfgA ++ l2 ∧
      VEvent.modelEval ∈ l1 ∧ VEvent.criterionEval ∈ l1 ∧
      (∀ b, VEvent.forwardBatch b ∉ l1) :=
  (val_no_grad_and_eval_mode valCfgA).2

/-- Claim C10: the remote-vs-local decision in `val` is substring membership
(`'http' in weight_path`), not a URL-scheme prefix test: `pyIn` holds exactly
when `"http"` occurs contiguously anywhere in the path, any path containing it
takes the remote-fetch branch, and only paths with no occurrence of `"http"`
are loaded as local files. -/
theorem val_http_branch_is_substring (cfg : ValConfig) (wp : String)
    (hw : cfg.weight_path = some wp) :
    (pyIn "http" wp = true ↔ ∃ p q, wp.data = p ++ "http".data ++ q) ∧
    (pyIn "http" wp = true →
      VEvent.loadFromUrl wp ∈ valTrace cfg ∧ VEvent.loadFromFile wp ∉ valTrace cfg) ∧
    (pyIn "http" wp = false →
      VEvent.loadFromFile wp ∈ valTrace cfg ∧ VEvent.loadFromUrl wp ∉ valTrace cfg) := by
  refine ⟨hasSub_iff _ _, ?_, ?_⟩ <;> intro hh
  · exact ⟨(((val_weight_loading cfg).1 wp hw).1 hh).1,
      (((val_weight_loading cfg).1 wp hw).1 hh).2 wp⟩
  · exact ⟨(((val_weight_loading cfg).1 wp hw).2.1 hh).1,
      (((val_weight_loading cfg).1 wp hw).2.1 hh).2 wp⟩

/-- Claim C10 (witness): the local-looking path `/data/httpmodels/w.pth`
contains `http`, so `val` takes the remote-fetch branch on it. -/
theorem val_http_branch_witness :
    VEvent.loadFromUrl "/data/httpmodels/w.pth" ∈ valTrace valCfgB ∧
    VEvent.loadFromFile "/data/httpmodels/w.pth" ∉ valTrace valCfgB :=
  (val_http_branch_is_substring valCfgB "/data/httpmodels/w.pth" rfl).2.1 (by decide)
